import Mathlib

/-!
Shallow embedding of the fsck object-integrity checker (src/fsck.c):
message catalog, severity policy, reporter, tree ordering, header and
identity-line validators, and the option-string parser.

Machine bytes are modelled as `Nat`; a C string is a NUL-free `List Nat`
(`List Char` for configuration text); end-of-buffer reads yield the NUL
byte 0 via `List.getD`, matching NUL-terminated reads.  `die` is modelled
as `Except.error`, the variadic sink callback as an explicit function
argument, and the process-wide static skip list together with a possible
caller-supplied one as an explicit `SkipEnv` state threaded through the
functions that touch them.
-/

/-- Internal severity levels: `FSCK_FATAL`/`FSCK_INFO` from fsck.c,
`FSCK_ERROR`/`FSCK_WARN`/`FSCK_IGNORE` from the fsck.h interface. -/
inductive MsgType where
  | fatal
  | info
  | error
  | warn
  | ignore
deriving DecidableEq

/-- One row of the message catalog: the symbolic identifier and the
default severity (the lazily downcased column is computed on demand by
`downcased` below). -/
structure MsgIdInfo where
  id_string : String
  msg_type : MsgType
deriving DecidableEq

/-- The `FOREACH_MSG_ID` table of src/fsck.c, in source order. -/
def msg_id_info : List MsgIdInfo := [
  ⟨"NUL_IN_HEADER", .fatal⟩,
  ⟨"UNTERMINATED_HEADER", .fatal⟩,
  ⟨"BAD_DATE", .error⟩,
  ⟨"BAD_DATE_OVERFLOW", .error⟩,
  ⟨"BAD_EMAIL", .error⟩,
  ⟨"BAD_NAME", .error⟩,
  ⟨"BAD_OBJECT_SHA1", .error⟩,
  ⟨"BAD_PARENT_SHA1", .error⟩,
  ⟨"BAD_TAG_OBJECT", .error⟩,
  ⟨"BAD_TIMEZONE", .error⟩,
  ⟨"BAD_TREE", .error⟩,
  ⟨"BAD_TREE_SHA1", .error⟩,
  ⟨"BAD_TYPE", .error⟩,
  ⟨"DUPLICATE_ENTRIES", .error⟩,
  ⟨"MISSING_AUTHOR", .error⟩,
  ⟨"MISSING_COMMITTER", .error⟩,
  ⟨"MISSING_EMAIL", .error⟩,
  ⟨"MISSING_GRAFT", .error⟩,
  ⟨"MISSING_NAME_BEFORE_EMAIL", .error⟩,
  ⟨"MISSING_OBJECT", .error⟩,
  ⟨"MISSING_PARENT", .error⟩,
  ⟨"MISSING_SPACE_BEFORE_DATE", .error⟩,
  ⟨"MISSING_SPACE_BEFORE_EMAIL", .error⟩,
  ⟨"MISSING_TAG", .error⟩,
  ⟨"MISSING_TAG_ENTRY", .error⟩,
  ⟨"MISSING_TAG_OBJECT", .error⟩,
  ⟨"MISSING_TREE", .error⟩,
  ⟨"MISSING_TYPE", .error⟩,
  ⟨"MISSING_TYPE_ENTRY", .error⟩,
  ⟨"MULTIPLE_AUTHORS", .error⟩,
  ⟨"TAG_OBJECT_NOT_TAG", .error⟩,
  ⟨"TREE_NOT_SORTED", .error⟩,
  ⟨"UNKNOWN_TYPE", .error⟩,
  ⟨"ZERO_PADDED_DATE", .error⟩,
  ⟨"BAD_FILEMODE", .warn⟩,
  ⟨"EMPTY_NAME", .warn⟩,
  ⟨"FULL_PATHNAME", .warn⟩,
  ⟨"HAS_DOT", .warn⟩,
  ⟨"HAS_DOTDOT", .warn⟩,
  ⟨"HAS_DOTGIT", .warn⟩,
  ⟨"NULL_SHA1", .warn⟩,
  ⟨"ZERO_PADDED_FILEMODE", .warn⟩,
  ⟨"BAD_TAG_NAME", .info⟩,
  ⟨"MISSING_TAGGER_ENTRY", .info⟩]

/-- `FSCK_MSG_MAX`: the number of diagnostic kinds. -/
def FSCK_MSG_MAX : Nat := 44

theorem msg_id_info_length : msg_id_info.length = FSCK_MSG_MAX := by decide

/-- A diagnostic kind is an index into the catalog. -/
abbrev MsgId := Fin FSCK_MSG_MAX

def FSCK_MSG_NUL_IN_HEADER : MsgId := ⟨0, by decide⟩
def FSCK_MSG_UNTERMINATED_HEADER : MsgId := ⟨1, by decide⟩
def FSCK_MSG_BAD_DATE : MsgId := ⟨2, by decide⟩
def FSCK_MSG_BAD_DATE_OVERFLOW : MsgId := ⟨3, by decide⟩
def FSCK_MSG_BAD_EMAIL : MsgId := ⟨4, by decide⟩
def FSCK_MSG_BAD_NAME : MsgId := ⟨5, by decide⟩
def FSCK_MSG_BAD_OBJECT_SHA1 : MsgId := ⟨6, by decide⟩
def FSCK_MSG_BAD_TIMEZONE : MsgId := ⟨9, by decide⟩
def FSCK_MSG_DUPLICATE_ENTRIES : MsgId := ⟨13, by decide⟩
def FSCK_MSG_MISSING_EMAIL : MsgId := ⟨16, by decide⟩
def FSCK_MSG_MISSING_NAME_BEFORE_EMAIL : MsgId := ⟨18, by decide⟩
def FSCK_MSG_MISSING_SPACE_BEFORE_DATE : MsgId := ⟨21, by decide⟩
def FSCK_MSG_MISSING_SPACE_BEFORE_EMAIL : MsgId := ⟨22, by decide⟩
def FSCK_MSG_TREE_NOT_SORTED : MsgId := ⟨31, by decide⟩
def FSCK_MSG_UNKNOWN_TYPE : MsgId := ⟨32, by decide⟩
def FSCK_MSG_ZERO_PADDED_DATE : MsgId := ⟨33, by decide⟩
def FSCK_MSG_BAD_FILEMODE : MsgId := ⟨34, by decide⟩
def FSCK_MSG_EMPTY_NAME : MsgId := ⟨35, by decide⟩
def FSCK_MSG_FULL_PATHNAME : MsgId := ⟨36, by decide⟩
def FSCK_MSG_HAS_DOT : MsgId := ⟨37, by decide⟩
def FSCK_MSG_HAS_DOTDOT : MsgId := ⟨38, by decide⟩
def FSCK_MSG_HAS_DOTGIT : MsgId := ⟨39, by decide⟩
def FSCK_MSG_NULL_SHA1 : MsgId := ⟨40, by decide⟩
def FSCK_MSG_ZERO_PADDED_FILEMODE : MsgId := ⟨41, by decide⟩

/-- The catalog entry of a kind. -/
def msg_info (k : MsgId) : MsgIdInfo := msg_id_info.getD k.val ⟨"", .error⟩

/-- The uppercase-underscored symbolic identifier of a kind. -/
def id_string (k : MsgId) : String := (msg_info k).id_string

/-- The compile-time default severity of a kind. -/
def default_msg_type (k : MsgId) : MsgType := (msg_info k).msg_type

/-- ASCII `tolower`. -/
def tolowerChar (c : Char) : Char :=
  if 'A' ≤ c ∧ c ≤ 'Z' then Char.ofNat (c.toNat + 32) else c

/-- The lazily computed `downcased` column of the catalog: the symbolic
identifier with underscores removed and the remaining characters
lowercased (the conversion loop in `parse_msg_id`). -/
def downcased (k : MsgId) : String :=
  String.mk (((id_string k).data.filter (fun c => c ≠ '_')).map tolowerChar)

/-- `parse_msg_id`: linear scan over the downcased identifiers, first
match wins, `none` for the C function's `-1`. -/
def parse_msg_id (text : String) : Option MsgId :=
  (List.finRange FSCK_MSG_MAX).find? (fun i => downcased i = text)

/-- A 20-byte object identifier. -/
abbrev Oid := List Nat

/-- Which skip-list array an options value references: the caller's own
array or the process-wide `static` array inside `init_skiplist`. -/
inductive SkipRef where
  | callerRef
  | staticRef
deriving DecidableEq

/-- The mutable arrays a `SkipRef` can point at, with their `sorted`
flags. -/
structure SkipEnv where
  staticList : List Oid
  staticSorted : Bool
  callerList : List Oid
  callerSorted : Bool
deriving DecidableEq

def skiplist_contents (env : SkipEnv) : SkipRef → List Oid
  | .callerRef => env.callerList
  | .staticRef => env.staticList

def skiplist_sorted (env : SkipEnv) : SkipRef → Bool
  | .callerRef => env.callerSorted
  | .staticRef => env.staticSorted

/-- `struct fsck_options`: the strict flag, the optional materialized
severity table (indexed by kind), and the optional skip-list reference.
The `error_func` and `walk` callbacks are passed explicitly to the
functions that invoke them. -/
structure FsckOptions where
  strict : Bool
  msg_type : Option (List MsgType)
  skiplist : Option SkipRef
deriving DecidableEq

/-- `fsck_msg_type`: table entry when a table has been materialized,
otherwise the catalog default with strict-mode promotion of `Warn`. -/
def fsck_msg_type (msg_id : MsgId) (options : FsckOptions) : MsgType :=
  match options.msg_type with
  | some t => t.getD msg_id.val MsgType.error
  | none =>
    if options.strict ∧ default_msg_type msg_id = MsgType.warn then
      MsgType.error
    else
      default_msg_type msg_id

/-- The collapse applied in `report` before the sink is called:
`Fatal` becomes `Error` and `Info` becomes `Warn`. -/
def collapse_msg_type (t : MsgType) : MsgType :=
  if t = MsgType.fatal then MsgType.error
  else if t = MsgType.info then MsgType.warn
  else t

/-- Object types as dispatched on by `fsck_object`/`fsck_walk`. -/
inductive ObjType where
  | blob
  | tree
  | commit
  | tag
  | other (n : Int)
deriving DecidableEq

/-- The part of `struct object` the reporter and the dispatchers read:
the identifier and the type tag. -/
structure Object where
  oid : Oid
  otype : ObjType
deriving DecidableEq

/-- Modelled from the spec: `sha1_array_lookup` (sha1-array.c, an
external collaborator) is used only for its sign; per the spec the skip
set "Membership is tested per diagnostic", so a non-negative return is
membership. -/
def sha1_array_lookup_mem (l : List Oid) (h : Oid) : Bool := l.contains h

/-- The skip test of `report`: only a non-null object with a configured
skip list is looked up. -/
def object_skipped (env : SkipEnv) (options : FsckOptions)
    (obj : Option Object) : Bool :=
  match options.skiplist, obj with
  | some r, some ob => sha1_array_lookup_mem (skiplist_contents env r) ob.oid
  | _, _ => false

/-- `append_msg_id` on the character list: ordinary characters are
lowercased, an underscore instead emits the character following it
verbatim. -/
def append_msg_id : List Char → List Char
  | [] => []
  | '_' :: c :: rest => c :: append_msg_id rest
  | '_' :: [] => []
  | c :: rest => tolowerChar c :: append_msg_id rest

/-- The message built by `report`: the camel-cased symbolic name, a
colon separator, then the formatted text. -/
def report_msg (id : MsgId) (msg : String) : String :=
  String.mk (append_msg_id (id_string id).data) ++ ": " ++ msg

/-- The observable effect of `report` on the error sink: `none` when the
diagnostic is ignored or skip-listed, otherwise the collapsed severity
and full message handed to `error_func`. -/
def reportSinkCall (env : SkipEnv) (options : FsckOptions)
    (obj : Option Object) (id : MsgId) (msg : String) :
    Option (MsgType × String) :=
  if fsck_msg_type id options = MsgType.ignore then none
  else if object_skipped env options obj then none
  else some (collapse_msg_type (fsck_msg_type id options),
             report_msg id msg)

/-- `report`: 0 when nothing reaches the sink, otherwise the sink's
return value. -/
def report (sink : Option Object → MsgType → String → Int)
    (env : SkipEnv) (options : FsckOptions) (obj : Option Object)
    (id : MsgId) (msg : String) : Int :=
  match reportSinkCall env options obj id msg with
  | none => 0
  | some c => sink obj c.1 c.2

/-- `fsck_error_function`: the default sink; warnings return 0, errors
return 1 (the printing itself is outside the model). -/
def fsck_error_function (_obj : Option Object) (msg_type : MsgType)
    (_message : String) : Int :=
  if msg_type = MsgType.warn then 0 else 1

/-- `memcmp` on byte lists of equal length (also `hashcmp` on two
20-byte identifiers): negative, zero or positive. -/
def memcmpList : List Nat → List Nat → Int
  | a :: as, b :: bs =>
    if a < b then -1 else if b < a then 1 else memcmpList as bs
  | _, _ => 0

/-- `parse_msg_type`: the three user-facing severities; anything else
dies. -/
def parse_msg_type (str : String) : Except String MsgType :=
  if str = "error" then .ok MsgType.error
  else if str = "warn" then .ok MsgType.warn
  else if str = "ignore" then .ok MsgType.ignore
  else .error ("Unknown fsck message type: " ++ str)

/-- The table materialized on the first override: every kind's current
effective severity. -/
def materialize_msg_types (options : FsckOptions) : List MsgType :=
  (List.finRange FSCK_MSG_MAX).map (fun i => fsck_msg_type i options)

/-- The severity table `fsck_set_msg_type` writes into: the already
materialized one, or a fresh one filled with the current effective
severities. -/
def msg_type_table (options : FsckOptions) : List MsgType :=
  match options.msg_type with
  | some t => t
  | none => materialize_msg_types options

/-- `fsck_set_msg_type`: parse the kind, parse the severity, refuse to
demote a `Fatal` kind below `Error`, materialize the table if absent,
then write the override. -/
def fsck_set_msg_type (options : FsckOptions)
    (msg_id msg_type : String) : Except String FsckOptions :=
  match parse_msg_id msg_id with
  | none => .error ("Unhandled message id: " ++ msg_id)
  | some id =>
    match parse_msg_type msg_type with
    | .error e => .error e
    | .ok ty =>
      if ty ≠ MsgType.error ∧ default_msg_type id = MsgType.fatal then
        .error ("Cannot demote " ++ msg_id ++ " to " ++ msg_type)
      else
        .ok { options with
                msg_type := some ((msg_type_table options).set id.val ty) }

/-- `init_skiplist` with the file already read and parsed into its list
of identifiers (open/read/parse failures die before this point and are
outside the model).  The initial `sorted` flag is taken from the
referenced array if the options carry one, otherwise the options are
pointed at the static array; every identifier is appended to the
function's `static` array, whose sortedness is tracked against its own
previous element; a still-sorted run finally sets the static array's
`sorted` flag. -/
def init_skiplist (env : SkipEnv) (options : FsckOptions)
    (ids : List Oid) : SkipEnv × FsckOptions :=
  let sorted0 := match options.skiplist with
    | some r => skiplist_sorted env r
    | none => true
  let options' := match options.skiplist with
    | some _ => options
    | none => { options with skiplist := some SkipRef.staticRef }
  let step := fun (st : List Oid × Bool) (sha1 : Oid) =>
    let l := st.1 ++ [sha1]
    (l, st.2 && !(1 < l.length && 0 < memcmpList (st.1.getLastD []) sha1))
  let res := ids.foldl step (env.staticList, sorted0)
  ({ env with
      staticList := res.1,
      staticSorted := if res.2 then true else env.staticSorted },
   options')

/-- Separator set of the override mini-language. -/
def sep_chars : List Char := [' ', ',', '|']

/-- The tokenizer of `fsck_set_msg_types`: `strcspn` over space, comma
and pipe, empty tokens skipped. -/
def splitTokensAux : List Char → List Char → List (List Char)
  | [], acc => [acc.reverse]
  | c :: rest, acc =>
    if c ∈ sep_chars then acc.reverse :: splitTokensAux rest []
    else splitTokensAux rest (c :: acc)

def splitTokens (cs : List Char) : List (List Char) :=
  (splitTokensAux cs []).filter (fun t => t ≠ [])

/-- One token of `fsck_set_msg_types`: find the first `=`/`:`, lowercase
the part before it in place, then dispatch on `skiplist` or a kind
override.  The skip-list file system is abstracted as a partial map from
paths to parsed identifier lists (`none` dies as an unopenable file). -/
def process_msg_types_token (files : String → Option (List Oid))
    (st : SkipEnv × FsckOptions) (tok : List Char) :
    Except String (SkipEnv × FsckOptions) :=
  let equal := tok.findIdx (fun c => c = '=' ∨ c = ':')
  let key := (tok.take equal).map tolowerChar
  let rest := tok.drop (equal + 1)
  if key = "skiplist".data then
    if equal = tok.length then .error "skiplist requires a path"
    else
      match files (String.mk rest) with
      | none => .error ("Could not open skip list: " ++ String.mk rest)
      | some ids => .ok (init_skiplist st.1 st.2 ids)
  else if equal = tok.length then
    .error ("Missing '=': '" ++ String.mk key ++ "'")
  else
    match fsck_set_msg_type st.2 (String.mk key) (String.mk rest) with
    | .error e => .error e
    | .ok o' => .ok (st.1, o')

/-- `fsck_set_msg_types`: process the separated tokens left to right. -/
def fsck_set_msg_types (files : String → Option (List Oid))
    (env : SkipEnv) (options : FsckOptions) (values : String) :
    Except String (SkipEnv × FsckOptions) :=
  (splitTokens values.data).foldlM (process_msg_types_token files)
    (env, options)

def TREE_UNORDERED : Int := -1
def TREE_HAS_DUPS : Int := -2

/-- `S_IFMT`-masked directory test. -/
def S_ISDIR (mode : Nat) : Bool := mode &&& 0o170000 = 0o40000

/-- The "virtual next character" of `verify_ordered`: the byte after
the compared prefix, where the terminating NUL of a directory entry is
read as '/'. -/
def virtualNext (mode : Nat) (name : List Nat) (len : Nat) : Nat :=
  if name.getD len 0 = 0 ∧ S_ISDIR mode then 47 else name.getD len 0

/-- `verify_ordered`: byte comparison (`memcmp`) over the shorter
length; on a tie, two absent next characters are duplicates, otherwise
the virtual next characters decide. -/
def verify_ordered (mode1 : Nat) (name1 : List Nat)
    (mode2 : Nat) (name2 : List Nat) : Int :=
  if memcmpList (name1.take (min name1.length name2.length))
      (name2.take (min name1.length name2.length)) < 0 then 0
  else if 0 < memcmpList (name1.take (min name1.length name2.length))
      (name2.take (min name1.length name2.length)) then TREE_UNORDERED
  else if name1.getD (min name1.length name2.length) 0 = 0 ∧
          name2.getD (min name1.length name2.length) 0 = 0 then
    TREE_HAS_DUPS
  else if virtualNext mode1 name1 (min name1.length name2.length) <
          virtualNext mode2 name2 (min name1.length name2.length) then 0
  else TREE_UNORDERED

/-- One already-extracted tree entry (`tree_entry_extract` is an
external collaborator): the raw bytes of the serialized octal mode
field, the parsed mode, the NUL-free path name and the entry's object
identifier. -/
structure TreeEntry where
  modeRaw : List Nat
  mode : Nat
  name : List Nat
  eoid : Oid
deriving DecidableEq

def nullOid : Oid := List.replicate 20 0

/-- The mode `switch` of `fsck_tree`: the five standard modes pass,
`0100664` passes only in non-strict mode, everything else is bad. -/
def entryBadMode (strict : Bool) (mode : Nat) : Bool :=
  if mode = 0o100755 ∨ mode = 0o100644 ∨ mode = 0o120000 ∨
     mode = 0o40000 ∨ mode = 0o160000 then false
  else if mode = 0o100664 then strict
  else true

/-- The accumulated per-tree boolean flags of `fsck_tree`. -/
structure TreeFlags where
  null_sha1 : Bool
  full_path : Bool
  empty_name : Bool
  dot : Bool
  dotdot : Bool
  dotgit : Bool
  zero_pad : Bool
  bad_modes : Bool
  dup_entries : Bool
  not_sorted : Bool
deriving DecidableEq

def treeFlagsInit : TreeFlags :=
  ⟨false, false, false, false, false, false, false, false, false, false⟩

/-- The path name `.git`. -/
def dotgitName : List Nat := [46, 103, 105, 116]

/-- The entry loop of `fsck_tree`: per-entry flag updates followed by
the ordering comparison against the previous entry.  The HFS and NTFS
dot-git alias detectors are external collaborators passed as
functions. -/
def fsck_tree_go (strict : Bool) (hfs ntfs : List Nat → Bool) :
    TreeFlags → Option (Nat × List Nat) → List TreeEntry → TreeFlags
  | f, _, [] => f
  | f, prev, e :: rest =>
    let f1 : TreeFlags :=
      { null_sha1 := f.null_sha1 || (e.eoid = nullOid),
        full_path := f.full_path || e.name.contains 47,
        empty_name := f.empty_name || (e.name = []),
        dot := f.dot || (e.name = [46]),
        dotdot := f.dotdot || (e.name = [46, 46]),
        dotgit := f.dotgit ||
          (e.name = dotgitName || hfs e.name || ntfs e.name),
        zero_pad := f.zero_pad || (e.modeRaw.getD 0 0 = 48),
        bad_modes := f.bad_modes || entryBadMode strict e.mode,
        dup_entries := f.dup_entries,
        not_sorted := f.not_sorted }
    let f2 : TreeFlags :=
      match prev with
      | none => f1
      | some (o_mode, o_name) =>
        if verify_ordered o_mode o_name e.mode e.name = TREE_UNORDERED then
          { f1 with not_sorted := true }
        else if verify_ordered o_mode o_name e.mode e.name = TREE_HAS_DUPS then
          { f1 with dup_entries := true }
        else f1
    fsck_tree_go strict hfs ntfs f2 (some (e.mode, e.name)) rest

def fsck_tree_flags (strict : Bool) (hfs ntfs : List Nat → Bool)
    (entries : List TreeEntry) : TreeFlags :=
  fsck_tree_go strict hfs ntfs treeFlagsInit none entries

def flagReport (b : Bool) (id : MsgId) (msg : String) :
    List (MsgId × String) :=
  if b then [(id, msg)] else []

/-- The report sequence at the end of `fsck_tree`, in source order. -/
def fsck_tree_reports (f : TreeFlags) : List (MsgId × String) :=
  flagReport f.null_sha1 FSCK_MSG_NULL_SHA1
      "contains entries pointing to null sha1" ++
  flagReport f.full_path FSCK_MSG_FULL_PATHNAME
      "contains full pathnames" ++
  flagReport f.empty_name FSCK_MSG_EMPTY_NAME
      "contains empty pathname" ++
  flagReport f.dot FSCK_MSG_HAS_DOT "contains '.'" ++
  flagReport f.dotdot FSCK_MSG_HAS_DOTDOT "contains '..'" ++
  flagReport f.dotgit FSCK_MSG_HAS_DOTGIT "contains '.git'" ++
  flagReport f.zero_pad FSCK_MSG_ZERO_PADDED_FILEMODE
      "contains zero-padded file modes" ++
  flagReport f.bad_modes FSCK_MSG_BAD_FILEMODE
      "contains bad file modes" ++
  flagReport f.dup_entries FSCK_MSG_DUPLICATE_ENTRIES
      "contains duplicate file entries" ++
  flagReport f.not_sorted FSCK_MSG_TREE_NOT_SORTED
      "not properly sorted"

/-- The sink calls `fsck_tree` gives rise to. -/
def fsck_tree_sink_calls (hfs ntfs : List Nat → Bool) (env : SkipEnv)
    (options : FsckOptions) (item : Object) (entries : List TreeEntry) :
    List (MsgType × String) :=
  (fsck_tree_reports (fsck_tree_flags options.strict hfs ntfs entries)).filterMap
    (fun im => reportSinkCall env options (some item) im.1 im.2)

/-- `fsck_tree`: the sum of the report returns. -/
def fsck_tree (hfs ntfs : List Nat → Bool)
    (sink : Option Object → MsgType → String → Int) (env : SkipEnv)
    (options : FsckOptions) (item : Object) (entries : List TreeEntry) :
    Int :=
  (fsck_tree_reports (fsck_tree_flags options.strict hfs ntfs entries)).foldl
    (fun acc im => acc + report sink env options (some item) im.1 im.2) 0

/-- What the header scan loop of `verify_headers` hits first: a NUL
byte, an LF LF separator, or the end of the buffer. -/
inductive HeaderScan where
  | foundNul
  | foundSep
  | atEnd
deriving DecidableEq

/-- The scan loop of `verify_headers`: byte by byte; a NUL wins
immediately, an LF followed by a further in-bounds LF wins, otherwise
continue. -/
def scanHeader : List Nat → HeaderScan
  | [] => .atEnd
  | b :: rest =>
    if b = 0 then .foundNul
    else if b = 10 ∧ rest.headD 0 = 10 then .foundSep
    else scanHeader rest

/-- Which way `verify_headers` exits. -/
inductive HeaderResult where
  | ok
  | nulInHeader
  | unterminated
deriving DecidableEq

/-- The decision structure of `verify_headers`: a NUL reports
`NUL_IN_HEADER`, a separator returns 0, and past the loop a non-empty
buffer ending in LF returns 0, everything else reports
`UNTERMINATED_HEADER`. -/
def verify_headers_check (buf : List Nat) : HeaderResult :=
  match scanHeader buf with
  | .foundNul => .nulInHeader
  | .foundSep => .ok
  | .atEnd =>
    if buf.getLast? = some 10 then .ok else .unterminated

/-- `verify_headers` proper: the reports are routed through `report`.
The NUL offset in the message is the index of the first NUL byte. -/
def verify_headers (sink : Option Object → MsgType → String → Int)
    (env : SkipEnv) (options : FsckOptions) (obj : Option Object)
    (buf : List Nat) : Int :=
  match verify_headers_check buf with
  | .ok => 0
  | .nulInHeader =>
    report sink env options obj FSCK_MSG_NUL_IN_HEADER
      ("unterminated header: NUL at offset " ++
        toString (buf.findIdx (fun b => b = 0)))
  | .unterminated =>
    report sink env options obj FSCK_MSG_UNTERMINATED_HEADER
      "unterminated header"

/-- `strcspn` from position `p`: the distance to the first byte in
`stop` (the terminating NUL, i.e. the end of the list, also stops). -/
def strcspnFrom (cs : List Nat) (p : Nat) (stop : List Nat) : Nat :=
  match (cs.drop p).findIdx? (fun b => stop.contains b) with
  | some i => i
  | none => cs.length - p

def isdigitByte (b : Nat) : Bool := 48 ≤ b && b ≤ 57

def isspaceByte (b : Nat) : Bool := b = 32 || (9 ≤ b && b ≤ 13)

/-- `strtoul(p, &end, 10)` (libc, external): skip whitespace, optional
sign, then a digit run; no digits leaves `end` at `p`; the value clamps
at `ULONG_MAX` and a minus sign wraps modulo `2^64`. -/
def strtoul10 (cs : List Nat) (p : Nat) : Nat × Nat :=
  let q := p + ((cs.drop p).takeWhile isspaceByte).length
  let neg := cs.getD q 0 = 45
  let q1 := if cs.getD q 0 = 45 ∨ cs.getD q 0 = 43 then q + 1 else q
  let digits := (cs.drop q1).takeWhile isdigitByte
  if digits = [] then (0, p)
  else
    let v := digits.foldl (fun a d => a * 10 + (d - 48)) 0
    let v64 := if v < 2 ^ 64 then v else 2 ^ 64 - 1
    ((if neg then (2 ^ 64 - v64) % 2 ^ 64 else v64), q1 + digits.length)

/-- Position of the `<` / `>` / LF byte the first `strcspn` of
`fsck_ident` stops at. -/
def identP1 (cs : List Nat) : Nat := strcspnFrom cs 0 [60, 62, 10]

/-- Position the second `strcspn` stops at, scanning from just past the
opening `<`. -/
def identP2 (cs : List Nat) : Nat :=
  identP1 cs + 1 + strcspnFrom cs (identP1 cs + 1) [60, 62, 10]

/-- Where `*ident` points on return: just past the first LF, or the end
of the buffer when there is none (`strchrnul`). -/
def identNext (cs : List Nat) : Nat :=
  match cs.findIdx? (fun b => b = 10) with
  | some i => i + 1
  | none => cs.length

/-- The diagnostic `fsck_ident` reports, `none` for a well-formed
identity line.  `dov` is the external `date_overflows` predicate. -/
def fsck_ident_msg (dov : Nat → Bool) (cs : List Nat) : Option MsgId :=
  if cs.getD 0 0 = 60 then some FSCK_MSG_MISSING_NAME_BEFORE_EMAIL
  else if cs.getD (identP1 cs) 0 = 62 then some FSCK_MSG_BAD_NAME
  else if cs.getD (identP1 cs) 0 ≠ 60 then some FSCK_MSG_MISSING_EMAIL
  else if cs.getD (identP1 cs - 1) 0 ≠ 32 then
    some FSCK_MSG_MISSING_SPACE_BEFORE_EMAIL
  else if cs.getD (identP2 cs) 0 ≠ 62 then some FSCK_MSG_BAD_EMAIL
  else if cs.getD (identP2 cs + 1) 0 ≠ 32 then
    some FSCK_MSG_MISSING_SPACE_BEFORE_DATE
  else if cs.getD (identP2 cs + 2) 0 = 48 ∧
          cs.getD (identP2 cs + 3) 0 ≠ 32 then
    some FSCK_MSG_ZERO_PADDED_DATE
  else if dov (strtoul10 cs (identP2 cs + 2)).1 then
    some FSCK_MSG_BAD_DATE_OVERFLOW
  else if (strtoul10 cs (identP2 cs + 2)).2 = identP2 cs + 2 ∨
          cs.getD (strtoul10 cs (identP2 cs + 2)).2 0 ≠ 32 then
    some FSCK_MSG_BAD_DATE
  else if ¬(cs.getD ((strtoul10 cs (identP2 cs + 2)).2 + 1) 0 = 43 ∨
            cs.getD ((strtoul10 cs (identP2 cs + 2)).2 + 1) 0 = 45) ∨
          ¬isdigitByte (cs.getD ((strtoul10 cs (identP2 cs + 2)).2 + 2) 0) ∨
          ¬isdigitByte (cs.getD ((strtoul10 cs (identP2 cs + 2)).2 + 3) 0) ∨
          ¬isdigitByte (cs.getD ((strtoul10 cs (identP2 cs + 2)).2 + 4) 0) ∨
          ¬isdigitByte (cs.getD ((strtoul10 cs (identP2 cs + 2)).2 + 5) 0) ∨
          cs.getD ((strtoul10 cs (identP2 cs + 2)).2 + 6) 0 ≠ 10 then
    some FSCK_MSG_BAD_TIMEZONE
  else none

/-- `fsck_ident`: the reported diagnostic (if any) together with the
advanced cursor. -/
def fsck_ident (dov : Nat → Bool) (cs : List Nat) : Option MsgId × Nat :=
  (fsck_ident_msg dov cs, identNext cs)

/-- The date position `fsck_ident` reaches when name, email and the two
surrounding spaces are all well-formed: the chain of checks before the
date, with `none` when one of them reports first. -/
def identDatePos (cs : List Nat) : Option Nat :=
  if cs.getD 0 0 = 60 then none
  else if cs.getD (identP1 cs) 0 = 62 then none
  else if cs.getD (identP1 cs) 0 ≠ 60 then none
  else if cs.getD (identP1 cs - 1) 0 ≠ 32 then none
  else if cs.getD (identP2 cs) 0 ≠ 62 then none
  else if cs.getD (identP2 cs + 1) 0 ≠ 32 then none
  else some (identP2 cs + 2)

/-- `fsck_object`, with the per-type validators (tree, commit, tag)
passed as functions: a null object routes `BAD_OBJECT_SHA1` through the
reporter, a blob returns 0, an unknown type tag reports
`UNKNOWN_TYPE`. -/
def fsck_object (treeCheck commitCheck tagCheck : Object → Int)
    (sink : Option Object → MsgType → String → Int) (env : SkipEnv)
    (options : FsckOptions) (obj : Option Object) : Int :=
  match obj with
  | none =>
    report sink env options none FSCK_MSG_BAD_OBJECT_SHA1
      "no valid object to fsck"
  | some ob =>
    match ob.otype with
    | .blob => 0
    | .tree => treeCheck ob
    | .commit => commitCheck ob
    | .tag => tagCheck ob
    | .other _ =>
      report sink env options (some ob) FSCK_MSG_UNKNOWN_TYPE
        "unknown type (internal fsck error)"

/-- `fsck_walk`, with the per-type walkers passed as functions: a null
object returns -1 before anything else happens; an unknown type tag
also returns -1 (after a free-form `error`, not a diagnostic). -/
def fsck_walk (walkTree walkCommit walkTag : Object → Int)
    (obj : Option Object) : Int :=
  match obj with
  | none => -1
  | some ob =>
    match ob.otype with
    | .blob => 0
    | .tree => walkTree ob
    | .commit => walkCommit ob
    | .tag => walkTag ob
    | .other _ => -1

set_option maxRecDepth 4000

/-- Helper: the downcased symbolic identifier of every kind parses back
to that kind. -/
theorem parse_msg_id_downcased :
    ∀ k : MsgId, parse_msg_id (downcased k) = some k := by decide

/-- An empty skip-list environment. -/
def env0 : SkipEnv := ⟨[], false, [], false⟩

/-- Default options: not strict, no override table, no skip list. -/
def opts0 : FsckOptions := ⟨false, none, none⟩

def oid1 : Oid := List.replicate 20 1

def env1 : SkipEnv := ⟨[], false, [oid1], true⟩

def optsSkip : FsckOptions := ⟨false, none, some .callerRef⟩

def ob1 : Object := ⟨oid1, .blob⟩

/-- C4: for every diagnostic kind, stripping underscores from the
catalog's symbolic identifier and lowercasing the remaining characters
yields a string that `parse_msg_id` maps back to exactly that kind: the
derivation followed by lookup is the identity on the closed
enumeration. -/
theorem parse_msg_id_downcased_roundtrip :
    ∀ k : MsgId, parse_msg_id (downcased k) = some k :=
  parse_msg_id_downcased

/-- C3: for a kind whose default severity is Fatal, `fsck_set_msg_type`
dies (modelled as `Except.error`) on an override to warn or ignore, and
succeeds on an override to error, whatever the options. -/
theorem fsck_set_msg_type_fatal_demotion (k : MsgId)
    (hk : default_msg_type k = MsgType.fatal) (options : FsckOptions) :
    (fsck_set_msg_type options (downcased k) "warn").isOk = false ∧
    (fsck_set_msg_type options (downcased k) "ignore").isOk = false ∧
    (fsck_set_msg_type options (downcased k) "error").isOk = true := by
  have hw : parse_msg_type "warn" = .ok MsgType.warn := rfl
  have hi : parse_msg_type "ignore" = .ok MsgType.ignore := rfl
  have he : parse_msg_type "error" = .ok MsgType.error := rfl
  unfold fsck_set_msg_type
  rw [parse_msg_id_downcased k, hw, hi, he]
  simp only [hk, Except.isOk]
  exact ⟨rfl, rfl, rfl⟩

theorem fsck_set_msg_type_fatal_demotion_witness :
    default_msg_type FSCK_MSG_NUL_IN_HEADER = MsgType.fatal ∧
    ((fsck_set_msg_type opts0 (downcased FSCK_MSG_NUL_IN_HEADER) "warn").isOk = false ∧
     (fsck_set_msg_type opts0 (downcased FSCK_MSG_NUL_IN_HEADER) "ignore").isOk = false ∧
     (fsck_set_msg_type opts0 (downcased FSCK_MSG_NUL_IN_HEADER) "error").isOk = true) :=
  ⟨by decide,
   fsck_set_msg_type_fatal_demotion FSCK_MSG_NUL_IN_HEADER (by decide) opts0⟩

/-- C1: the effective severity is the materialized table entry when a
table exists, otherwise the catalog default with strict-mode promotion
of Warn to Error; after the Fatal-to-Error and Info-to-Warn collapse the
value lies in Error/Warn/Ignore, and any severity actually handed to the
sink is Error or Warn. -/
theorem fsck_report_severity_domain (options : FsckOptions) (k : MsgId) :
    (∀ t, options.msg_type = some t →
        fsck_msg_type k options = t.getD k.val MsgType.error) ∧
    (options.msg_type = none →
        fsck_msg_type k options =
          (if options.strict ∧ default_msg_type k = MsgType.warn
           then MsgType.error else default_msg_type k)) ∧
    (fsck_msg_type k options = MsgType.ignore ∨
       collapse_msg_type (fsck_msg_type k options) = MsgType.error ∨
       collapse_msg_type (fsck_msg_type k options) = MsgType.warn) ∧
    (∀ env obj msg sev m,
        reportSinkCall env options obj k msg = some (sev, m) →
        sev = MsgType.error ∨ sev = MsgType.warn) := by
  refine ⟨?_, ?_, ?_, ?_⟩
  · intro t ht
    simp [fsck_msg_type, ht]
  · intro ht
    simp [fsck_msg_type, ht]
  · cases h : fsck_msg_type k options <;> simp [collapse_msg_type]
  · intro env obj msg sev m h
    by_cases hig : fsck_msg_type k options = MsgType.ignore
    · simp [reportSinkCall, hig] at h
    · by_cases hsk : object_skipped env options obj
      · simp [reportSinkCall, hig, hsk] at h
      · simp [reportSinkCall, hig, hsk] at h
        cases hmt : fsck_msg_type k options <;>
          simp [hmt, collapse_msg_type] at h <;> simp [← h.1]
        exact absurd hmt hig

theorem fsck_report_severity_domain_witness :
    reportSinkCall env0 opts0 none FSCK_MSG_BAD_DATE "x" =
      some (MsgType.error, report_msg FSCK_MSG_BAD_DATE "x") ∧
    (MsgType.error = MsgType.error ∨ MsgType.error = MsgType.warn) :=
  ⟨by decide,
   (fsck_report_severity_domain opts0 FSCK_MSG_BAD_DATE).2.2.2 env0 none "x"
     MsgType.error (report_msg FSCK_MSG_BAD_DATE "x") (by decide)⟩

/-- C2: a non-null object whose identifier lies in the referenced skip
set suppresses any diagnostic whose effective severity is not Ignore:
`report` returns 0 and the sink is never invoked. -/
theorem fsck_report_skiplist_suppression
    (sink : Option Object → MsgType → String → Int)
    (env : SkipEnv) (options : FsckOptions) (r : SkipRef)
    (ob : Object) (k : MsgId) (msg : String)
    (hr : options.skiplist = some r)
    (hmem : ob.oid ∈ skiplist_contents env r)
    (hsev : fsck_msg_type k options ≠ MsgType.ignore) :
    report sink env options (some ob) k msg = 0 ∧
    reportSinkCall env options (some ob) k msg = none := by
  have hsk : object_skipped env options (some ob) = true := by
    simp [object_skipped, hr, sha1_array_lookup_mem]
    exact hmem
  have hc : reportSinkCall env options (some ob) k msg = none := by
    simp [reportSinkCall, hsev, hsk]
  exact ⟨by simp [report, hc], hc⟩

theorem fsck_report_skiplist_suppression_witness :
    report (fun _ _ _ => 1) env1 optsSkip (some ob1) FSCK_MSG_BAD_DATE "m" = 0 ∧
    reportSinkCall env1 optsSkip (some ob1) FSCK_MSG_BAD_DATE "m" = none :=
  fsck_report_skiplist_suppression (fun _ _ _ => 1) env1 optsSkip .callerRef
    ob1 FSCK_MSG_BAD_DATE "m" rfl (by decide) (by decide)

/-- C10: a null object makes `fsck_object` route `BAD_OBJECT_SHA1`
through the reporter and return the reporter's value — never the
structural-failure value -1 as long as the sink keeps its 0/1 contract;
with a null object the skip set is not consulted (the call is invariant
in the skip list); by contrast `fsck_walk` on a null object returns -1
without any diagnostic. -/
theorem fsck_object_null_behavior
    (treeCheck commitCheck tagCheck : Object → Int)
    (sink : Option Object → MsgType → String → Int)
    (env : SkipEnv) (options : FsckOptions) :
    fsck_object treeCheck commitCheck tagCheck sink env options none =
      report sink env options none FSCK_MSG_BAD_OBJECT_SHA1
        "no valid object to fsck" ∧
    (∀ env2 sl1 sl2 k msg,
       reportSinkCall env { options with skiplist := sl1 } none k msg =
       reportSinkCall env2 { options with skiplist := sl2 } none k msg) ∧
    ((∀ ob mt m, sink ob mt m = 0 ∨ sink ob mt m = 1) →
       fsck_object treeCheck commitCheck tagCheck sink env options none ≠ -1) ∧
    (∀ walkTree walkCommit walkTag : Object → Int,
       fsck_walk walkTree walkCommit walkTag none = -1) := by
  refine ⟨rfl, ?_, ?_, fun _ _ _ => rfl⟩
  · intro env2 sl1 sl2 k msg
    have h1 : object_skipped env { options with skiplist := sl1 } none = false := by
      cases sl1 <;> simp [object_skipped]
    have h2 : object_skipped env2 { options with skiplist := sl2 } none = false := by
      cases sl2 <;> simp [object_skipped]
    simp [reportSinkCall, h1, h2, fsck_msg_type]
  · intro hs
    show report sink env options none FSCK_MSG_BAD_OBJECT_SHA1
        "no valid object to fsck" ≠ -1
    unfold report
    cases hrc : reportSinkCall env options none FSCK_MSG_BAD_OBJECT_SHA1
        "no valid object to fsck" with
    | none =>
      show (0 : Int) ≠ -1
      decide
    | some c =>
      rcases hs none c.1 c.2 with h | h <;> simp [h]

theorem fsck_object_null_behavior_witness :
    fsck_object (fun _ => 0) (fun _ => 0) (fun _ => 0) fsck_error_function
      env0 opts0 none ≠ -1 ∧
    fsck_walk (fun _ => 0) (fun _ => 0) (fun _ => 0) none = -1 :=
  ⟨(fsck_object_null_behavior (fun _ => 0) (fun _ => 0) (fun _ => 0)
      fsck_error_function env0 opts0).2.2.1
     (by
       intro ob mt m
       by_cases h : mt = MsgType.warn <;> simp [fsck_error_function, h]),
   (fsck_object_null_behavior (fun _ => 0) (fun _ => 0) (fun _ => 0)
      fsck_error_function env0 opts0).2.2.2 _ _ _⟩

def oid2 : Oid := List.replicate 20 2

/-- C9: evaluation at the failing input.  With a caller-supplied skip
set already referenced by the options, `init_skiplist` leaves the
caller's set unchanged — the identifier read from the file lands in the
process-wide static array instead, while the options keep referencing
the caller's set.  The claim (and spec) say the caller's set is
augmented in place, which would make the caller's list
`[oid1] ++ [oid2]`. -/
theorem init_skiplist_static_append_bug :
    (init_skiplist env1 optsSkip [oid2]).1.callerList = [oid1] ∧
    (init_skiplist env1 optsSkip [oid2]).1.callerList ≠
      env1.callerList ++ [oid2] ∧
    (init_skiplist env1 optsSkip [oid2]).1.staticList = [oid2] ∧
    (init_skiplist env1 optsSkip [oid2]).2.skiplist =
      some SkipRef.callerRef := by decide

/-- Position `j` starts an LF LF separator. -/
def sepAt (buf : List Nat) (j : Nat) : Prop :=
  j + 1 < buf.length ∧ buf.getD j 0 = 10 ∧ buf.getD (j + 1) 0 = 10

instance (buf : List Nat) (j : Nat) : Decidable (sepAt buf j) := by
  unfold sepAt
  infer_instance

/-- A NUL byte occurs before any separator. -/
def nulBeforeSep (buf : List Nat) : Prop :=
  ∃ i < buf.length, buf.getD i 0 = 0 ∧ ∀ j < i, ¬ sepAt buf j

/-- A separator is reached before any NUL byte. -/
def sepReachedFirst (buf : List Nat) : Prop :=
  ∃ j, sepAt buf j ∧ ∀ i < j, buf.getD i 0 ≠ 0

/-- No NUL, no separator, non-empty, and the last byte is LF. -/
def lenientTail (buf : List Nat) : Prop :=
  (∀ i < buf.length, buf.getD i 0 ≠ 0) ∧ (∀ j < buf.length, ¬ sepAt buf j) ∧
  buf ≠ [] ∧ buf.getLast? = some 10

lemma scanHeader_cons (b : Nat) (rest : List Nat) :
    scanHeader (b :: rest) =
      (if b = 0 then HeaderScan.foundNul
       else if b = 10 ∧ rest.headD 0 = 10 then HeaderScan.foundSep
       else scanHeader rest) := rfl

lemma sepAt_cons_succ (b : Nat) (rest : List Nat) (j : Nat) :
    sepAt (b :: rest) (j + 1) ↔ sepAt rest j := by
  simp [sepAt, Nat.succ_lt_succ_iff]

lemma sepAt_cons_zero (b : Nat) (rest : List Nat) :
    sepAt (b :: rest) 0 ↔ (b = 10 ∧ rest.headD 0 = 10) := by
  cases rest with
  | nil => simp [sepAt]
  | cons c cs => simp [sepAt, Nat.succ_lt_succ_iff, and_comm]

lemma scanHeader_nul {buf : List Nat} (h : scanHeader buf = .foundNul) :
    nulBeforeSep buf := by
  induction buf with
  | nil => simp [scanHeader] at h
  | cons b rest ih =>
    rw [scanHeader_cons] at h
    by_cases hb : b = 0
    · exact ⟨0, by simp, by simp [hb], fun j hj => absurd hj (by omega)⟩
    · rw [if_neg hb] at h
      by_cases hsep : b = 10 ∧ rest.headD 0 = 10
      · rw [if_pos hsep] at h
        exact absurd h (by decide)
      · rw [if_neg hsep] at h
        obtain ⟨i, hi, h0, hns⟩ := ih h
        refine ⟨i + 1, by simpa using Nat.succ_lt_succ hi, by simpa using h0, ?_⟩
        intro j hj
        cases j with
        | zero => rw [sepAt_cons_zero]; exact hsep
        | succ j' => rw [sepAt_cons_succ]; exact hns j' (by omega)

lemma scanHeader_sep {buf : List Nat} (h : scanHeader buf = .foundSep) :
    sepReachedFirst buf := by
  induction buf with
  | nil => simp [scanHeader] at h
  | cons b rest ih =>
    rw [scanHeader_cons] at h
    by_cases hb : b = 0
    · rw [if_pos hb] at h
      exact absurd h (by decide)
    · rw [if_neg hb] at h
      by_cases hsep : b = 10 ∧ rest.headD 0 = 10
      · exact ⟨0, (sepAt_cons_zero b rest).mpr hsep,
          fun i hi => absurd hi (by omega)⟩
      · rw [if_neg hsep] at h
        obtain ⟨j, hs, hno⟩ := ih h
        refine ⟨j + 1, (sepAt_cons_succ b rest j).mpr hs, ?_⟩
        intro i hi
        cases i with
        | zero => simpa using hb
        | succ i' => simpa using hno i' (by omega)

lemma scanHeader_end {buf : List Nat} (h : scanHeader buf = .atEnd) :
    (∀ i, i < buf.length → buf.getD i 0 ≠ 0) ∧ (∀ j, ¬ sepAt buf j) := by
  induction buf with
  | nil =>
    refine ⟨fun i hi => absurd hi (by simp), fun j hj => ?_⟩
    rcases hj with ⟨hlen, -⟩
    simp at hlen
  | cons b rest ih =>
    rw [scanHeader_cons] at h
    by_cases hb : b = 0
    · rw [if_pos hb] at h
      exact absurd h (by decide)
    · rw [if_neg hb] at h
      by_cases hsep : b = 10 ∧ rest.headD 0 = 10
      · rw [if_pos hsep] at h
        exact absurd h (by decide)
      · rw [if_neg hsep] at h
        obtain ⟨hn, hs⟩ := ih h
        constructor
        · intro i hi
          cases i with
          | zero => simpa using hb
          | succ i' =>
            simpa using hn i' (by simpa using Nat.lt_of_succ_lt_succ hi)
        · intro j
          cases j with
          | zero => rw [sepAt_cons_zero]; exact hsep
          | succ j' => rw [sepAt_cons_succ]; exact hs j'

lemma nulBeforeSep_not_sepFirst {buf : List Nat}
    (h1 : nulBeforeSep buf) (h2 : sepReachedFirst buf) : False := by
  obtain ⟨i, hi, h0, hns⟩ := h1
  obtain ⟨j, hsep, hno⟩ := h2
  rcases lt_trichotomy i j with hij | hij | hij
  · exact hno i hij h0
  · obtain ⟨-, hs10, -⟩ := hsep
    subst hij
    omega
  · exact hns j hij hsep

/-- C6: a NUL byte before the first LF LF separator makes
`verify_headers` report `NUL_IN_HEADER`; reaching a separator first, or
having no separator but a non-empty buffer ending in LF, makes it
succeed; in all other cases it reports `UNTERMINATED_HEADER`. -/
theorem verify_headers_characterization (buf : List Nat) :
    (nulBeforeSep buf → verify_headers_check buf = .nulInHeader) ∧
    (sepReachedFirst buf ∨ lenientTail buf →
       verify_headers_check buf = .ok) ∧
    (¬ nulBeforeSep buf → ¬ (sepReachedFirst buf ∨ lenientTail buf) →
       verify_headers_check buf = .unterminated) := by
  cases hscan : scanHeader buf with
  | foundNul =>
    have hc := scanHeader_nul hscan
    refine ⟨fun _ => by simp [verify_headers_check, hscan], ?_,
      fun hn _ => absurd hc hn⟩
    rintro (hs | hl)
    · exact (nulBeforeSep_not_sepFirst hc hs).elim
    · obtain ⟨i, hi, h0, -⟩ := hc
      exact absurd h0 (hl.1 i hi)
  | foundSep =>
    have hc := scanHeader_sep hscan
    exact ⟨fun hn => (nulBeforeSep_not_sepFirst hn hc).elim,
      fun _ => by simp [verify_headers_check, hscan],
      fun _ hno => absurd (Or.inl hc) hno⟩
  | atEnd =>
    obtain ⟨hn, hs⟩ := scanHeader_end hscan
    by_cases hlast : buf.getLast? = some 10
    · have hne : buf ≠ [] := by
        intro he
        rw [he] at hlast
        simp at hlast
      have hl : lenientTail buf :=
        ⟨fun i hi => hn i hi, fun j _ => hs j, hne, hlast⟩
      refine ⟨?_, fun _ => by simp [verify_headers_check, hscan, hlast],
        fun _ hno => absurd (Or.inr hl) hno⟩
      intro hnul
      obtain ⟨i, hi, h0, -⟩ := hnul
      exact absurd h0 (hn i hi)
    · refine ⟨?_, ?_, fun _ _ => by simp [verify_headers_check, hscan, hlast]⟩
      · intro hnul
        obtain ⟨i, hi, h0, -⟩ := hnul
        exact absurd h0 (hn i hi)
      · rintro (hsf | hl)
        · obtain ⟨j, hj, -⟩ := hsf
          exact absurd hj (hs j)
        · exact absurd hl.2.2.2 hlast

theorem verify_headers_characterization_witness :
    sepReachedFirst [104, 10, 10] ∧
    verify_headers_check [104, 10, 10] = .ok :=
  have hs : sepReachedFirst [104, 10, 10] :=
    ⟨1, by decide, fun i hi => by
      have h0 : i = 0 := by omega
      subst h0
      decide⟩
  ⟨hs, (verify_headers_characterization [104, 10, 10]).2.1 (Or.inl hs)⟩

/-- Follows the spec's words (claim C7): "the date field starts with `0`
and has more than one digit", i.e. the byte at the date position is '0'
and the byte after it is also a digit. -/
def spec_zero_padded_date (cs : List Nat) (p : Nat) : Bool :=
  cs.getD p 0 = 48 && isdigitByte (cs.getD (p + 1) 0)

/-- The identity line `A <a@b> 0x +0000` (with terminating LF): its date
field is the single digit '0' followed by a non-digit, non-space
byte. -/
def identCx : List Nat :=
  [65, 32, 60, 97, 64, 98, 62, 32, 48, 120, 32, 43, 48, 48, 48, 48, 10]

/-- C7 counterexample: the code reports `ZERO_PADDED_DATE` on a date
field whose digit run is the single digit '0' (followed by 'x'), so the
diagnostic is not reported "exactly when the date has more than one
digit". -/
theorem fsck_ident_zero_padded_counterexample :
    fsck_ident_msg (fun _ => false) identCx = some FSCK_MSG_ZERO_PADDED_DATE ∧
    identDatePos identCx = some 8 ∧
    identCx.getD 8 0 = 48 ∧
    spec_zero_padded_date identCx 8 = false := by decide

/-- C7 amended: on any identity line that reaches the date position,
`ZERO_PADDED_DATE` is reported exactly when the date field starts with
'0' and the next byte is not a space (so more than one digit triggers
it, and a single '0' followed by a space does not). -/
theorem fsck_ident_zero_padded_amended (dov : Nat → Bool)
    (cs : List Nat) (p : Nat) (h : identDatePos cs = some p) :
    (fsck_ident_msg dov cs = some FSCK_MSG_ZERO_PADDED_DATE ↔
       (cs.getD p 0 = 48 ∧ cs.getD (p + 1) 0 ≠ 32)) := by
  unfold identDatePos at h
  split_ifs at h with h1 h2 h3 h4 h5 h6
  all_goals simp at h
  subst h
  unfold fsck_ident_msg
  rw [if_neg h1, if_neg h2, if_neg h3, if_neg h4, if_neg h5, if_neg h6]
  have e : identP2 cs + 2 + 1 = identP2 cs + 3 := by omega
  rw [e]
  by_cases hc : cs.getD (identP2 cs + 2) 0 = 48 ∧ cs.getD (identP2 cs + 3) 0 ≠ 32
  · rw [if_pos hc]
    exact iff_of_true rfl hc
  · rw [if_neg hc]
    simp only [hc, iff_false]
    split_ifs <;> decide

/-- The identity line `A <a@b> 0123456789 +0000` (with terminating LF)
from the spec's concrete scenario. -/
def identOkZp : List Nat :=
  [65, 32, 60, 97, 64, 98, 62, 32, 48, 49, 50, 51, 52, 53, 54, 55, 56, 57,
   32, 43, 48, 48, 48, 48, 10]

theorem fsck_ident_zero_padded_amended_witness :
    identDatePos identOkZp = some 8 ∧
    fsck_ident_msg (fun _ => false) identOkZp =
      some FSCK_MSG_ZERO_PADDED_DATE :=
  ⟨by decide,
   (fsck_ident_zero_padded_amended (fun _ => false) identOkZp 8
      (by decide)).mpr (by decide)⟩

/-- Helper: no downcased identifier contains a token separator, an
equals sign or a colon. -/
lemma downcased_no_special :
    ∀ k : MsgId, ∀ c ∈ (downcased k).data,
      ¬(c = ' ' ∨ c = ',' ∨ c = '|' ∨ c = '=' ∨ c = ':') := by decide

lemma downcased_ne_skiplist :
    ∀ k : MsgId, (downcased k).data ≠ "skiplist".data := by decide

lemma splitTokensAux_no_sep (t : List Char) (acc : List Char)
    (h : ∀ c ∈ t, c ∉ sep_chars) :
    splitTokensAux t acc = [acc.reverse ++ t] := by
  induction t generalizing acc with
  | nil => simp [splitTokensAux]
  | cons c rest ih =>
    have hc : c ∉ sep_chars := h c (by simp)
    rw [splitTokensAux, if_neg hc, ih _ (fun d hd => h d (by simp [hd]))]
    simp

lemma splitTokens_single (t : List Char) (hne : t ≠ [])
    (h : ∀ c ∈ t, c ∉ sep_chars) : splitTokens t = [t] := by
  unfold splitTokens
  rw [splitTokensAux_no_sep t [] h]
  simp [hne]

lemma findIdx_append_first (p : Char → Bool) (s : List Char) (x : Char)
    (r : List Char) (hs : ∀ c ∈ s, p c = false) (hx : p x = true) :
    (s ++ x :: r).findIdx p = s.length := by
  induction s with
  | nil => simp [List.findIdx_cons, hx]
  | cons c cs ih =>
    have hc : p c = false := hs c (by simp)
    simp [List.findIdx_cons, hc, ih (fun d hd => hs d (by simp [hd]))]

lemma drop_append_cons (s : List Char) (x : Char) (r : List Char) :
    (s ++ x :: r).drop (s.length + 1) = r := by
  induction s with
  | nil => simp
  | cons c cs ih => simp [ih]

lemma getD_set_self (t : List MsgType) (n : Nat) :
    (t.set n MsgType.error).getD n MsgType.error = MsgType.error := by
  induction t generalizing n with
  | nil => simp [List.getD]
  | cons a rest ih =>
    cases n with
    | zero => simp [List.getD]
    | succ n' => simpa [List.getD] using ih n'

/-- C8 counterexample: a kind spelled with its underscores dies with the
unknown-kind error, because the token is only lowercased and
`parse_msg_id` compares against the underscore-stripped names — so kind
names are not matched "with or without underscores". -/
theorem fsck_set_msg_types_underscore_counterexample :
    fsck_set_msg_types (fun _ => none) env0 opts0 "MISSING_EMAIL=error" =
      .error "Unhandled message id: missing_email" := rfl

/-- C8 amended: any mixed-case spelling of a kind's symbolic name
WITHOUT its underscores (any string that lowercases to the downcased
identifier) selects that kind: `fsck_set_msg_types` succeeds and the
kind's effective severity becomes the requested one. -/
theorem fsck_set_msg_types_case_insensitive_amended
    (files : String → Option (List Oid)) (env : SkipEnv)
    (options : FsckOptions) (k : MsgId) (s : List Char)
    (hmap : s.map tolowerChar = (downcased k).data) :
    ∃ o', fsck_set_msg_types files env options
        (String.mk (s ++ '=' :: "error".data)) = .ok (env, o') ∧
      fsck_msg_type k o' = MsgType.error := by
  have hsc : ∀ c ∈ s, c ∉ sep_chars ∧ ¬(c = '=' ∨ c = ':') := by
    intro c hc
    have hmem : tolowerChar c ∈ (downcased k).data := by
      rw [← hmap]
      exact List.mem_map_of_mem _ hc
    have hspec := downcased_no_special k _ hmem
    constructor
    · intro hsep
      simp [sep_chars] at hsep
      rcases hsep with h | h | h <;> subst h <;>
        exact hspec (by simp [tolowerChar])
    · intro hec
      rcases hec with h | h <;> subst h <;>
        exact hspec (by simp [tolowerChar])
  have htok_nosep : ∀ c ∈ s ++ '=' :: "error".data, c ∉ sep_chars := by
    intro c hc
    rcases List.mem_append.mp hc with h | h
    · exact (hsc c h).1
    · simp at h
      rcases h with h | h | h | h | h <;> subst h <;> decide
  have htok_ne : s ++ '=' :: "error".data ≠ [] := by simp
  have hsplit : splitTokens (s ++ '=' :: "error".data) =
      [s ++ '=' :: "error".data] :=
    splitTokens_single _ htok_ne htok_nosep
  have hfind : (s ++ '=' :: "error".data).findIdx
      (fun c => c = '=' ∨ c = ':') = s.length := by
    refine findIdx_append_first _ s '=' "error".data ?_ (by decide)
    intro c hc
    have h2 := (hsc c hc).2
    simpa using h2
  have hkey : String.mk ((s ++ '=' :: "error".data).take s.length |>.map
      tolowerChar) = downcased k := by
    rw [List.take_left' rfl, hmap]
  have hset : fsck_set_msg_type options (downcased k) "error" =
      .ok { options with
              msg_type :=
                some ((msg_type_table options).set k.val MsgType.error) } := by
    unfold fsck_set_msg_type
    rw [parse_msg_id_downcased k]
    have he : parse_msg_type "error" = .ok MsgType.error := rfl
    rw [he]
    simp
  have hproc : process_msg_types_token files (env, options)
      (s ++ '=' :: "error".data) =
      .ok (env,
        { options with
            msg_type :=
              some ((msg_type_table options).set k.val MsgType.error) }) := by
    unfold process_msg_types_token
    rw [hfind]
    rw [if_neg (by rw [List.take_left' rfl, hmap]; exact downcased_ne_skiplist k)]
    rw [if_neg (by simp)]
    rw [drop_append_cons]
    rw [show String.mk ((s ++ '=' :: "error".data).take s.length |>.map
      tolowerChar) = downcased k from hkey]
    rw [show String.mk "error".data = "error" from rfl]
    rw [hset]
  refine ⟨{ options with
              msg_type :=
                some ((msg_type_table options).set k.val MsgType.error) },
    ?_, ?_⟩
  · unfold fsck_set_msg_types
    rw [show (String.mk (s ++ '=' :: "error".data)).data =
      s ++ '=' :: "error".data from rfl]
    rw [hsplit, List.foldlM_cons, hproc]
    rfl
  · show ((msg_type_table options).set k.val MsgType.error).getD k.val
      MsgType.error = MsgType.error
    exact getD_set_self _ _

theorem fsck_set_msg_types_case_insensitive_amended_witness :
    ∃ o', fsck_set_msg_types (fun _ => none) env0 opts0
        (String.mk ("MissingEmail".data ++ '=' :: "error".data)) =
      .ok (env0, o') ∧
      fsck_msg_type FSCK_MSG_MISSING_EMAIL o' = MsgType.error :=
  fsck_set_msg_types_case_insensitive_amended (fun _ => none) env0 opts0
    FSCK_MSG_MISSING_EMAIL "MissingEmail".data (by decide)


lemma memcmpList_self (l : List Nat) : memcmpList l l = 0 := by
  induction l with
  | nil => rfl
  | cons a rest ih => simp [memcmpList, ih]

lemma memcmpList_firstDiff (i : Nat) :
    ∀ (as bs : List Nat), i < as.length → i < bs.length →
      (∀ j, j < i → as.getD j 0 = bs.getD j 0) →
      as.getD i 0 ≠ bs.getD i 0 →
      memcmpList as bs =
        (if as.getD i 0 < bs.getD i 0 then -1 else 1) := by
  induction i with
  | zero =>
    intro as bs ha hb _ hne
    match as, bs with
    | a :: as', b :: bs' =>
      simp only [List.getD_cons_zero] at hne ⊢
      rcases Nat.lt_trichotomy a b with h | h | h
      · simp [memcmpList, h]
      · exact absurd h hne
      · rw [if_neg (by omega)]
        simp [memcmpList, Nat.not_lt.mpr (Nat.le_of_lt h), h]
  | succ i' ih =>
    intro as bs ha hb heq hne
    match as, bs with
    | a :: as', b :: bs' =>
      have h0 : a = b := by
        have := heq 0 (by omega)
        simpa using this
      have hstep : memcmpList (a :: as') (b :: bs') = memcmpList as' bs' := by
        simp [memcmpList, h0]
      rw [hstep]
      have := ih as' bs' (by simpa using ha) (by simpa using hb)
        (fun j hj => by simpa using heq (j + 1) (by omega))
        (by simpa using hne)
      simpa using this

lemma getD_take (l : List Nat) (n j : Nat) (hj : j < n) :
    (l.take n).getD j 0 = l.getD j 0 := by
  induction l generalizing n j with
  | nil => simp
  | cons a rest ih =>
    cases n with
    | zero => omega
    | succ n' =>
      cases j with
      | zero => simp
      | succ j' => simpa using ih n' j' (by omega)

lemma verify_ordered_firstDiff (m1 : Nat) (n1 : List Nat) (m2 : Nat)
    (n2 : List Nat) (i : Nat) (h1 : i < n1.length) (h2 : i < n2.length)
    (heq : ∀ j, j < i → n1.getD j 0 = n2.getD j 0)
    (hne : n1.getD i 0 ≠ n2.getD i 0) :
    verify_ordered m1 n1 m2 n2 =
      (if n1.getD i 0 < n2.getD i 0 then 0 else TREE_UNORDERED) := by
  have hlen : i < min n1.length n2.length := by omega
  have hcmp : memcmpList (n1.take (min n1.length n2.length))
      (n2.take (min n1.length n2.length)) =
      (if n1.getD i 0 < n2.getD i 0 then -1 else 1) := by
    have hta : i < (n1.take (min n1.length n2.length)).length := by
      simp [List.length_take]
      omega
    have htb : i < (n2.take (min n1.length n2.length)).length := by
      simp [List.length_take]
      omega
    have := memcmpList_firstDiff i (n1.take (min n1.length n2.length))
      (n2.take (min n1.length n2.length)) hta htb
      (fun j hj => by
        rw [getD_take _ _ _ (by omega), getD_take _ _ _ (by omega)]
        exact heq j hj)
      (by
        rw [getD_take _ _ _ hlen, getD_take _ _ _ hlen]
        exact hne)
    rw [this, getD_take _ _ _ hlen, getD_take _ _ _ hlen]
  by_cases hlt : n1.getD i 0 < n2.getD i 0
  · rw [if_pos hlt]
    rw [if_pos hlt] at hcmp
    unfold verify_ordered
    rw [hcmp]
    simp
  · rw [if_neg hlt]
    rw [if_neg hlt] at hcmp
    unfold verify_ordered
    rw [hcmp]
    norm_num

lemma verify_ordered_strict_prefix (m1 : Nat) (n1 : List Nat) (m2 : Nat)
    (n2 : List Nat)
    (hpre : n1.take (min n1.length n2.length) =
            n2.take (min n1.length n2.length))
    (hlen : n1.length ≠ n2.length) (h01 : 0 ∉ n1) (h02 : 0 ∉ n2) :
    verify_ordered m1 n1 m2 n2 =
      (if virtualNext m1 n1 (min n1.length n2.length) <
          virtualNext m2 n2 (min n1.length n2.length) then 0
       else TREE_UNORDERED) := by
  have hcmp : memcmpList (n1.take (min n1.length n2.length))
      (n2.take (min n1.length n2.length)) = 0 := by
    rw [hpre]
    exact memcmpList_self _
  have hc12 : ¬(n1.getD (min n1.length n2.length) 0 = 0 ∧
      n2.getD (min n1.length n2.length) 0 = 0) := by
    rcases Nat.lt_or_ge n1.length n2.length with h | h
    · intro hc
      have hlt : min n1.length n2.length < n2.length := by omega
      have : n2.getD (min n1.length n2.length) 0 ∈ n2 := by
        rw [List.getD_eq_getElem _ _ hlt]
        exact List.getElem_mem hlt
      rw [hc.2] at this
      exact h02 this
    · intro hc
      have hlt : min n1.length n2.length < n1.length := by omega
      have : n1.getD (min n1.length n2.length) 0 ∈ n1 := by
        rw [List.getD_eq_getElem _ _ hlt]
        exact List.getElem_mem hlt
      rw [hc.1] at this
      exact h01 this
  unfold verify_ordered
  rw [hcmp]
  rw [if_neg (by norm_num), if_neg (by norm_num), if_neg hc12]

lemma verify_ordered_eq_names (m1 m2 : Nat) (n : List Nat) :
    verify_ordered m1 n m2 n = TREE_HAS_DUPS := by
  have hcmp : memcmpList (n.take (min n.length n.length))
      (n.take (min n.length n.length)) = 0 := memcmpList_self _
  have hc : n.getD (min n.length n.length) 0 = 0 := by
    apply List.getD_eq_default
    omega
  unfold verify_ordered
  rw [hcmp]
  rw [if_neg (by norm_num), if_neg (by norm_num), if_pos ⟨hc, hc⟩]

lemma flagReport_mem (x : MsgId × String) (b : Bool) (id : MsgId)
    (m : String) : x ∈ flagReport b id m ↔ (b = true ∧ x = (id, m)) := by
  cases b <;> simp [flagReport]

lemma fsck_tree_dup_flags (strict : Bool) (hfs ntfs : List Nat → Bool)
    (e1 e2 : TreeEntry) (hname : e1.name = e2.name) :
    (fsck_tree_flags strict hfs ntfs [e1, e2]).dup_entries = true ∧
    (fsck_tree_flags strict hfs ntfs [e1, e2]).not_sorted = false := by
  have hvo : verify_ordered e1.mode e1.name e2.mode e2.name =
      TREE_HAS_DUPS := by
    rw [hname]
    exact verify_ordered_eq_names _ _ _
  constructor <;>
    simp [fsck_tree_flags, fsck_tree_go, hvo, treeFlagsInit,
      TREE_HAS_DUPS, TREE_UNORDERED]

lemma fsck_tree_dup_reports (strict : Bool) (hfs ntfs : List Nat → Bool)
    (e1 e2 : TreeEntry) (hname : e1.name = e2.name) :
    (FSCK_MSG_DUPLICATE_ENTRIES, "contains duplicate file entries") ∈
      fsck_tree_reports (fsck_tree_flags strict hfs ntfs [e1, e2]) ∧
    ∀ m', (FSCK_MSG_TREE_NOT_SORTED, m') ∉
      fsck_tree_reports (fsck_tree_flags strict hfs ntfs [e1, e2]) := by
  obtain ⟨hdup, hns⟩ := fsck_tree_dup_flags strict hfs ntfs e1 e2 hname
  constructor
  · simp only [fsck_tree_reports, List.mem_append, flagReport_mem]
    tauto
  · intro m'
    simp only [fsck_tree_reports, List.mem_append, flagReport_mem, hns]
    push_neg
    repeat' apply And.intro
    all_goals intro hflag heq
    all_goals
      first
      | exact absurd (Prod.mk.inj heq).1 (by decide)
      | exact absurd hflag (by decide)

/-- The regular-file entry `a.c`, mode 100644 (raw mode text
"100644"). -/
def entryAC : TreeEntry := ⟨[49, 48, 48, 54, 52, 52], 0o100644, [97, 46, 99], oid1⟩

/-- The directory entry `a`, mode 40000 (raw mode text "40000"). -/
def entryDirA : TreeEntry := ⟨[52, 48, 48, 48, 48], 0o40000, [97], oid2⟩

def obTree : Object := ⟨oid1, .tree⟩

lemma fsck_tree_ac_dira_flags (hfs ntfs : List Nat → Bool)
    (hh1 : hfs [97, 46, 99] = false) (hh2 : hfs [97] = false)
    (hn1 : ntfs [97, 46, 99] = false) (hn2 : ntfs [97] = false) :
    fsck_tree_flags false hfs ntfs [entryAC, entryDirA] = treeFlagsInit := by
  simp only [fsck_tree_flags, fsck_tree_go, entryAC, entryDirA]
  rw [hh1, hh2, hn1, hn2]
  decide

/-- C5: the tree-entry ordering check compares names byte-wise up to
the shorter length (the first differing byte decides); when one name is
a strict prefix of the other, the virtual next characters — the
terminating byte, replaced by '/' iff that entry is a directory —
decide; fully equal names yield `TREE_HAS_DUPS`, which `fsck_tree`
classifies as `DUPLICATE_ENTRIES` and never as `TREE_NOT_SORTED`; and
the concrete pair `a.c` (regular file) then `a` (directory) is
well-sorted and produces zero diagnostics. -/
theorem fsck_tree_ordering_spec :
    (∀ m1 n1 m2 n2 i, i < List.length n1 → i < List.length n2 →
        (∀ j, j < i → List.getD n1 j 0 = List.getD n2 j 0) →
        List.getD n1 i 0 ≠ List.getD n2 i 0 →
        verify_ordered m1 n1 m2 n2 =
          (if List.getD n1 i 0 < List.getD n2 i 0 then 0
           else TREE_UNORDERED)) ∧
    (∀ m1 n1 m2 n2,
        List.take (min (List.length n1) (List.length n2)) n1 =
          List.take (min (List.length n1) (List.length n2)) n2 →
        List.length n1 ≠ List.length n2 → 0 ∉ n1 → 0 ∉ n2 →
        verify_ordered m1 n1 m2 n2 =
          (if virtualNext m1 n1 (min (List.length n1) (List.length n2)) <
              virtualNext m2 n2 (min (List.length n1) (List.length n2))
           then 0 else TREE_UNORDERED)) ∧
    (∀ m1 m2 n, verify_ordered m1 n m2 n = TREE_HAS_DUPS) ∧
    (∀ strict hfs ntfs (e1 e2 : TreeEntry), e1.name = e2.name →
        (FSCK_MSG_DUPLICATE_ENTRIES, "contains duplicate file entries") ∈
          fsck_tree_reports (fsck_tree_flags strict hfs ntfs [e1, e2]) ∧
        ∀ m', (FSCK_MSG_TREE_NOT_SORTED, m') ∉
          fsck_tree_reports (fsck_tree_flags strict hfs ntfs [e1, e2])) ∧
    (∀ hfs ntfs (sink : Option Object → MsgType → String → Int),
        hfs [97, 46, 99] = false → hfs [97] = false →
        ntfs [97, 46, 99] = false → ntfs [97] = false →
        verify_ordered 0o100644 [97, 46, 99] 0o40000 [97] = 0 ∧
        fsck_tree_sink_calls hfs ntfs env0 opts0 obTree
          [entryAC, entryDirA] = [] ∧
        fsck_tree hfs ntfs sink env0 opts0 obTree
          [entryAC, entryDirA] = 0) := by
  refine ⟨verify_ordered_firstDiff, verify_ordered_strict_prefix,
    verify_ordered_eq_names, fsck_tree_dup_reports, ?_⟩
  intro hfs ntfs sink hh1 hh2 hn1 hn2
  have hf := fsck_tree_ac_dira_flags hfs ntfs hh1 hh2 hn1 hn2
  refine ⟨by decide, ?_, ?_⟩
  · unfold fsck_tree_sink_calls
    rw [show opts0.strict = false from rfl, hf]
    rfl
  · unfold fsck_tree
    rw [show opts0.strict = false from rfl, hf]
    rfl

theorem fsck_tree_ordering_spec_witness :
    verify_ordered 0o100644 [97] 0o100644 [97] = TREE_HAS_DUPS ∧
    fsck_tree_sink_calls (fun _ => false) (fun _ => false) env0 opts0
      obTree [entryAC, entryDirA] = [] :=
  ⟨fsck_tree_ordering_spec.2.2.1 0o100644 0o100644 [97],
   (fsck_tree_ordering_spec.2.2.2.2 (fun _ => false) (fun _ => false)
      (fun _ _ _ => 0) rfl rfl rfl rfl).2.1⟩
